import Mathlib

/-!
Shallow embedding of the connection-pool manager of `src/server.go`
(package `t1k`).  Go `int64` fields are modelled as `Int` (the values in
play are bounded by the pool size, far from overflow); the buffered
channel `poolCh` is modelled as a FIFO list (receive takes the head, send
appends at the tail); the socket factory is modelled by an oracle
`factorySpec : Nat -> Option Err` giving the outcome of the k-th factory
call (`none` = success) together with a call counter `factoryCalls`.
The sequential semantics models one goroutine running at a time, which is
what the claims about single calls and single sweeps quantify over.
The `conn` type itself lives in a repository file that is not under
`src/`; the parts of its behaviour the pool relies on (`makeConn` yields a
healthy connection, `tryReconnIfFailed`, `Heartbeat`) are modelled from
the spec and marked as such below.
-/

namespace T1k

/-- An opaque error value, as produced by the socket factory or by a
detection exchange. -/
structure Err where
  code : Nat
deriving DecidableEq, Repr

/-- A pooled connection (the `conn` wrapper): the transport it owns is
identified by the index of the factory call that created it, plus the
`failing` flag.  Modelled from the spec for the parts of `conn` outside
`src/`: `makeConn` produces a connection that is not failing. -/
structure Conn where
  id : Nat
  failing : Bool
deriving DecidableEq, Repr

/-- The `Server` state (`src/server.go:23-36`), restricted to the fields
the pooling logic reads and writes.  `pool` is the buffered channel
`poolCh`; `count` and `poolSize` are the `int64` fields; `factoryCalls`
and `factorySpec` model the socket factory; `pingSpec` models, per
transport id, whether a heartbeat ping of that transport succeeds
(modelled from the spec: the `conn.Heartbeat` body is outside `src/`);
`closedCh` records whether `closeCh` has been closed; `hcClosed` whether
`healthCheck.Close()` has run; `transportsClosed` the transports closed
by `Server.Close` in order. -/
structure ServerState where
  poolSize : Int
  count : Int
  pool : List Conn
  factoryCalls : Nat
  factorySpec : Nat → Option Err
  pingSpec : Nat → Bool
  closedCh : Bool
  hcClosed : Bool
  transportsClosed : List Nat

/-- Embedding of `newConn` (`src/server.go:67-75`): call the socket
factory (through `CallSockFactory`; the error hook only observes errors
and does not change pool state); on failure return the error, on success
increment `count` and send a fresh healthy connection into the pool
channel. -/
def newConn (s : ServerState) : ServerState × Option Err :=
  match s.factorySpec s.factoryCalls with
  | some e => ({ s with factoryCalls := s.factoryCalls + 1 }, some e)
  | none =>
      ({ s with
          factoryCalls := s.factoryCalls + 1
          count := s.count + 1
          pool := s.pool ++ [{ id := s.factoryCalls, failing := false }] },
        none)

set_option linter.unusedVariables false in
/-- Embedding of the growth loop inside `GetConn`
(`src/server.go:83-88`): `for i := 0; i < (s.poolSize - s.count); i++`
with the bound re-evaluated against the current `s.count` before every
iteration (Go semantics), calling `newConn` and stopping at the first
factory error. -/
def growLoop (s : ServerState) (i : Int) : ServerState × Option Err :=
  if h : i < s.poolSize - s.count then
    match hr : newConn s with
    | (s', some e) => (s', some e)
    | (s', none) => growLoop s' (i + 1)
  else (s, none)
termination_by (s.poolSize - s.count - i).toNat
decreasing_by
  simp only [newConn] at hr
  rcases hf : s.factorySpec s.factoryCalls with _ | e
  · rw [hf] at hr
    simp only [Prod.mk.injEq] at hr
    rw [← hr.1]
    simp only []
    omega
  · rw [hf] at hr
    simp at hr

/-- Embedding of the growth phase of `GetConn` (`src/server.go:80-94`):
the atomic fast-path check followed, under `cntlock`, by the re-check and
the growth loop (in this sequential embedding the two reads of `count`
coincide). -/
def growPhase (s : ServerState) : ServerState × Option Err :=
  if s.count < s.poolSize then growLoop s 0 else (s, none)

/-- Modelled from the spec: `conn.tryReconnIfFailed` lives in the
repository's connection file, which is not under `src/`.  Per spec 4.2,
on a failing connection it calls back into the pool's socket factory; on
factory success the transport is replaced and the failing flag cleared,
on factory failure the connection stays failing and the error is
returned. -/
def tryReconnIfFailed (s : ServerState) (c : Conn) :
    ServerState × Conn × Option Err :=
  if c.failing then
    match s.factorySpec s.factoryCalls with
    | some e => ({ s with factoryCalls := s.factoryCalls + 1 }, c, some e)
    | none =>
        ({ s with factoryCalls := s.factoryCalls + 1 },
          { id := s.factoryCalls, failing := false }, none)
  else (s, c, none)

/-- Result of a `GetConn` call: a granted connection, a returned error,
or `blocked` when the channel receive `c := <-s.poolCh` would block
because the pool is momentarily empty. -/
inductive GetResult where
  | ok (c : Conn)
  | err (e : Err)
  | blocked
deriving DecidableEq, Repr

/-- Embedding of the second half of `GetConn` (`src/server.go:96-105`):
receive one connection from the pool channel; if it is failing, attempt
repair, pushing the still-failing connection back and returning the error
on repair failure. -/
def getFromPool (s : ServerState) : ServerState × GetResult :=
  match s.pool with
  | [] => (s, .blocked)
  | c :: rest =>
      if c.failing then
        match tryReconnIfFailed { s with pool := rest } c with
        | (s2, c2, some e) => ({ s2 with pool := s2.pool ++ [c2] }, .err e)
        | (s2, c2, none) => (s2, .ok c2)
      else ({ s with pool := rest }, .ok c)

/-- Embedding of `GetConn` (`src/server.go:77-106`): growth phase, early
return on a factory error, then receive-and-repair. -/
def GetConn (s : ServerState) : ServerState × GetResult :=
  match growPhase s with
  | (s1, some e) => (s1, .err e)
  | (s1, none) => getFromPool s1

/-- Embedding of `PutConn` (`src/server.go:108-110`): send the connection
back into the pool channel. -/
def PutConn (s : ServerState) (c : Conn) : ServerState :=
  { s with pool := s.pool ++ [c] }

/-- Effect of `c.Heartbeat()` on the connection, modelled from the spec
(the `conn` file is outside `src/`): a ping that fails marks the
connection failing, a successful ping leaves it unchanged. -/
def pingConn (s : ServerState) (c : Conn) : Conn :=
  if s.pingSpec c.id then c else { c with failing := true }

/-- One iteration of the `select` loop of `broadcastHeartbeat`
(`src/server.go:112-124`): `none` when the receive would block and the
`default` branch returns; otherwise receive the head connection, ping it
unless it is already failing, and `PutConn` it back. -/
def hbStep (s : ServerState) : Option ServerState :=
  match s.pool with
  | [] => none
  | c :: rest =>
      let c' := if c.failing then c else pingConn s c
      some (PutConn { s with pool := rest } c')

/-- Embedding of `broadcastHeartbeat` (`src/server.go:112-124`), indexed
by fuel: the Boolean is `true` when the loop reached its `default` branch
and returned within `fuel` iterations, `false` when `fuel` iterations
were executed without the loop returning. -/
def broadcastHeartbeat : Nat → ServerState → ServerState × Bool
  | 0, s => (s, false)
  | Nat.succ f, s =>
      match hbStep s with
      | none => (s, true)
      | some s' => broadcastHeartbeat f s'

/-- How a run of `Server.Close` ended: the drain loop ran to completion
and `healthCheck.Close()` was reached, or `GetConn` returned an error and
`Close` returned early (`src/server.go:261-263`), or a `GetConn` inside
the drain would block on the empty pool channel. -/
inductive CloseOutcome where
  | completed
  | earlyErr
  | blocked
deriving DecidableEq, Repr

/-- Effect of `c.Close()` on the pool state during the drain: the
connection's transport is closed; nothing else on the `Server` changes
(in particular `count` is not decremented). -/
def connClose (s : ServerState) (c : Conn) : ServerState :=
  { s with transportsClosed := s.transportsClosed ++ [c.id] }

/-- Embedding of the drain loop of `Close` (`src/server.go:259-265`):
`for i := 0; i < s.count; i++` with the bound re-read from the current
state, acquiring and closing one connection per iteration.  Indexed by
fuel; outcome `none` means the loop was still running after `fuel`
iterations. -/
def closeDrain : Nat → ServerState → Int → ServerState × Option CloseOutcome
  | 0, s, _ => (s, none)
  | Nat.succ f, s, i =>
      if i < s.count then
        match GetConn s with
        | (s1, .ok c) => closeDrain f (connClose s1 c) (i + 1)
        | (s1, .err _) => (s1, some .earlyErr)
        | (s1, .blocked) => (s1, some .blocked)
      else (s, some .completed)

/-- Embedding of `Server.Close` (`src/server.go:257-267`): close
`closeCh`, drain, and close the Health-Check Service only on the path
where the drain loop ran to completion (the early `return` on a `GetConn`
error skips `s.healthCheck.Close()`). -/
def Close (fuel : Nat) (s : ServerState) : ServerState × Option CloseOutcome :=
  match closeDrain fuel { s with closedCh := true } 0 with
  | (s1, some .completed) => ({ s1 with hcClosed := true }, some .completed)
  | (s1, r) => (s1, r)

/-- Result of a `Detect*` convenience call on the `Server`. -/
inductive DetectOutcome where
  | ok
  | failed (e : Err)
  | blocked
deriving DecidableEq, Repr

/-- Embedding of `Server.DetectRequestInCtx` (`src/server.go:207-214`):
acquire, delegate the exchange to the connection (the exchange itself is
an opaque capability, modelled by the oracle `ex`), and `defer
s.PutConn(c)` releases the connection on every path after a successful
acquire. -/
def DetectRequestInCtx (s : ServerState) (ex : Conn → Option Err) :
    ServerState × DetectOutcome :=
  match GetConn s with
  | (s1, .err e) => (s1, .failed e)
  | (s1, .blocked) => (s1, .blocked)
  | (s1, .ok c) =>
      match ex c with
      | none => (PutConn s1 c, .ok)
      | some e => (PutConn s1 c, .failed e)

/-- Embedding of `Server.DetectResponseInCtx` (`src/server.go:216-223`);
identical pool behaviour to `DetectRequestInCtx` (it delegates to a
different opaque exchange on the connection, and the `misc.ErrorWrap`
decoration of the acquire error lives outside `src/` and does not affect
the pool state). -/
def DetectResponseInCtx (s : ServerState) (ex : Conn → Option Err) :
    ServerState × DetectOutcome :=
  match GetConn s with
  | (s1, .err e) => (s1, .failed e)
  | (s1, .blocked) => (s1, .blocked)
  | (s1, .ok c) =>
      match ex c with
      | none => (PutConn s1 c, .ok)
      | some e => (PutConn s1 c, .failed e)

/-- Embedding of `Server.DetectHttpRequest` (`src/server.go:238-245`);
same shape: acquire, delegate, `defer s.PutConn(c)`. -/
def DetectHttpRequest (s : ServerState) (ex : Conn → Option Err) :
    ServerState × DetectOutcome :=
  match GetConn s with
  | (s1, .err e) => (s1, .failed e)
  | (s1, .blocked) => (s1, .blocked)
  | (s1, .ok c) =>
      match ex c with
      | none => (PutConn s1 c, .ok)
      | some e => (PutConn s1 c, .failed e)

/-- Embedding of `Server.DetectRequest` (`src/server.go:247-254`); same
shape: acquire, delegate, `defer s.PutConn(c)`. -/
def DetectRequest (s : ServerState) (ex : Conn → Option Err) :
    ServerState × DetectOutcome :=
  match GetConn s with
  | (s1, .err e) => (s1, .failed e)
  | (s1, .blocked) => (s1, .blocked)
  | (s1, .ok c) =>
      match ex c with
      | none => (PutConn s1 c, .ok)
      | some e => (PutConn s1 c, .failed e)

/-- Embedding of the two-way `Server.Detect` (`src/server.go:225-236`):
acquire, delegate, and `s.PutConn(c)` only when the exchange succeeded —
on an exchange error the connection is not returned to the pool. -/
def Detect (s : ServerState) (ex : Conn → Option Err) :
    ServerState × DetectOutcome :=
  match GetConn s with
  | (s1, .err e) => (s1, .failed e)
  | (s1, .blocked) => (s1, .blocked)
  | (s1, .ok c) =>
      match ex c with
      | none => (PutConn s1 c, .ok)
      | some e => (s1, .failed e)

/-- Accumulate the value of a run of decimal digits; `none` as soon as a
non-digit character is met (Go `strconv.Atoi` parses base 10 only). -/
def decDigits (cs : List Char) : Option Nat :=
  cs.foldl
    (fun acc c =>
      match acc with
      | none => none
      | some n => if c.isDigit then some (n * 10 + (c.toNat - 48)) else none)
    (some 0)

/-- Model of Go `strconv.Atoi` on a 64-bit platform: an optional sign
followed by at least one decimal digit, with the value required to fit in
`int64`; `none` models a non-nil error (in which case the caller of
`runHeartbeatCo` keeps the default). -/
def goAtoi (str : String) : Option Int :=
  let signed : Bool × List Char :=
    match str.data with
    | '-' :: rest => (true, rest)
    | '+' :: rest => (false, rest)
    | l => (false, l)
  match signed.2 with
  | [] => none
  | _ =>
      match decDigits signed.2 with
      | none => none
      | some n =>
          let v : Int := if signed.1 then -(n : Int) else (n : Int)
          if -(2 ^ 63) ≤ v ∧ v < 2 ^ 63 then some v else none

/-- Embedding of the interval selection at the top of `runHeartbeatCo`
(`src/server.go:126-134`): `os.Getenv` yields `""` both for an unset and
for an empty `T1K_HEARTBEAT_INTERVAL`; a non-empty value is used only if
`strconv.Atoi` succeeds, otherwise the default `HEARTBEAT_INTERVAL = 20`
(`src/server.go:20`) stands. -/
def heartbeatInterval (env : String) : Int :=
  if env ≠ "" then
    match goAtoi env with
    | some v => v
    | none => 20
  else 20

/-- Embedding of the timer loop of `runHeartbeatCo`
(`src/server.go:135-143`) restricted to the interval it arms each tick:
the environment is a function of time, read exactly once (at time `0`,
before the loop); every one of the first `n` ticks arms its timer with
that same value. -/
def runHeartbeatIntervals (envAt : Nat → String) (n : Nat) : List Int :=
  let interval := heartbeatInterval (envAt 0)
  List.replicate n interval

/-- One sequential operation on the pool, for stating whole-lifetime
invariants: an `Acquire`, a `Release`, a heartbeat sweep (with fuel), a
`Close` (with fuel), or one of the detection convenience calls with an
opaque exchange oracle. -/
inductive Op where
  | acquire
  | release (c : Conn)
  | heartbeatSweep (fuel : Nat)
  | closeOp (fuel : Nat)
  | detectReqCtx (ex : Conn → Option Err)
  | detectRespCtx (ex : Conn → Option Err)
  | detectHttp (ex : Conn → Option Err)
  | detectReq (ex : Conn → Option Err)
  | detectBoth (ex : Conn → Option Err)

/-- The state reached after running one operation (the connection granted
by an `acquire`, being checked out, is simply absent from the state until
a later `release`). -/
def applyOp (s : ServerState) : Op → ServerState
  | .acquire => (GetConn s).1
  | .release c => PutConn s c
  | .heartbeatSweep fuel => (broadcastHeartbeat fuel s).1
  | .closeOp fuel => (Close fuel s).1
  | .detectReqCtx ex => (DetectRequestInCtx s ex).1
  | .detectRespCtx ex => (DetectResponseInCtx s ex).1
  | .detectHttp ex => (DetectHttpRequest s ex).1
  | .detectReq ex => (DetectRequest s ex).1
  | .detectBoth ex => (Detect s ex).1

/-- A pool state with the given size, live count, idle queue, number of
factory calls already made and factory oracle; the remaining fields are
at their post-construction values
(`NewFromSocketFactoryWithPoolSize`, `src/server.go:161-181`). -/
def mkState (n c : Int) (pool : List Conn) (fc : Nat)
    (fs : Nat → Option Err) : ServerState :=
  { poolSize := n, count := c, pool := pool, factoryCalls := fc,
    factorySpec := fs, pingSpec := fun _ => true,
    closedCh := false, hcClosed := false, transportsClosed := [] }

/-- Freshly constructed pool of target size 2 whose socket factory always
succeeds. -/
def poolTwoStart : ServerState := mkState 2 0 [] 0 (fun _ => none)

/-- A pool of size 1 whose single healthy connection is idle in the
queue: the configuration a heartbeat tick typically meets. -/
def hbOneIdle : ServerState :=
  mkState 1 1 [{ id := 0, failing := false }] 1 (fun _ => none)

/-- A pool of size 2 with one live idle connection whose socket factory
fails every further call with error 7. -/
def closeFactoryFails : ServerState :=
  mkState 2 1 [{ id := 0, failing := false }] 1 (fun _ => some { code := 7 })

/-- A pool of size 2 with one live idle connection and an always
succeeding factory: `Close` from here must grow before it can drain. -/
def closeHalfFull : ServerState :=
  mkState 2 1 [{ id := 0, failing := false }] 1 (fun _ => none)

/-- A pool of size 1 with no connection created yet. -/
def emptyPool : ServerState := mkState 1 0 [] 0 (fun _ => none)

/-- A pool of size 1 with no connection yet whose socket factory always
fails with error 5: scenario of the factory-failure claim. -/
def factoryAlwaysFails : ServerState :=
  mkState 1 0 [] 0 (fun _ => some { code := 5 })

/-- A full pool of size 1 whose single idle connection is marked failing
and whose factory (used for repair) succeeds. -/
def failingIdle : ServerState :=
  mkState 1 1 [{ id := 0, failing := true }] 1 (fun _ => none)

/-- A full pool of size 1 whose single idle connection is marked failing
and whose factory (used for repair) fails with error 9. -/
def repairFails : ServerState :=
  mkState 1 1 [{ id := 0, failing := true }] 1 (fun _ => some { code := 9 })

/-- A full pool of size 1 with one healthy idle connection, ready for a
detection convenience call. -/
def detectReady : ServerState :=
  mkState 1 1 [{ id := 0, failing := false }] 1 (fun _ => none)

/-- An exchange oracle that fails every exchange with error 3. -/
def exFail : Conn → Option Err := fun _ => some { code := 3 }

/-- Unfolding `growLoop` when the loop condition fails: the loop exits
without a factory call. -/
theorem growLoop_eq_done {s : ServerState} {i : Int}
    (h : ¬ i < s.poolSize - s.count) : growLoop s i = (s, none) := by
  rw [growLoop.eq_def, dif_neg h]

/-- Unfolding `growLoop` on an iteration whose factory call fails: the
loop breaks and the error is reported. -/
theorem growLoop_eq_err {s s' : ServerState} {i : Int} {e : Err}
    (h : i < s.poolSize - s.count) (hn : newConn s = (s', some e)) :
    growLoop s i = (s', some e) := by
  rw [growLoop.eq_def, dif_pos h]
  split
  next s2 e2 heq =>
    rw [hn] at heq
    injection heq with h1 h2
    injection h2 with h3
    rw [h1, h3]
  next s2 heq =>
    rw [hn] at heq
    simp at heq

/-- Unfolding `growLoop` on an iteration whose factory call succeeds: the
loop continues from the grown state. -/
theorem growLoop_eq_step {s s' : ServerState} {i : Int}
    (h : i < s.poolSize - s.count) (hn : newConn s = (s', none)) :
    growLoop s i = growLoop s' (i + 1) := by
  rw [growLoop.eq_def, dif_pos h]
  split
  next s2 e2 heq =>
    rw [hn] at heq
    simp at heq
  next s2 heq =>
    rw [hn] at heq
    injection heq with h1 h2
    rw [h1]

/-- A `growLoop` run of exactly one successful iteration. -/
theorem growLoop_one_success {s s' : ServerState} {i : Int}
    (h : i < s.poolSize - s.count) (hn : newConn s = (s', none))
    (h2 : ¬ i + 1 < s'.poolSize - s'.count) :
    growLoop s i = (s', none) := by
  rw [growLoop_eq_step h hn, growLoop_eq_done h2]

/-- Unfolding the growth phase when the fast-path count check passes. -/
theorem growPhase_of_lt {s : ServerState} (h : s.count < s.poolSize) :
    growPhase s = growLoop s 0 := by
  unfold growPhase
  rw [if_pos h]

/-- Unfolding the growth phase when the pool is already full: no growth
is attempted. -/
theorem growPhase_of_ge {s : ServerState} (h : ¬ s.count < s.poolSize) :
    growPhase s = (s, none) := by
  unfold growPhase
  rw [if_neg h]

/-- `GetConn` proceeds to the channel receive when growth succeeded or
was skipped. -/
theorem GetConn_of_grow_none {s s1 : ServerState}
    (h : growPhase s = (s1, none)) : GetConn s = getFromPool s1 := by
  unfold GetConn
  rw [h]

/-- `GetConn` returns the factory error when the growth phase failed. -/
theorem GetConn_of_grow_err {s s1 : ServerState} {e : Err}
    (h : growPhase s = (s1, some e)) : GetConn s = (s1, .err e) := by
  unfold GetConn
  rw [h]

/-- Repair of a failing connection when the factory call fails: the
connection stays failing and the error comes back. -/
theorem tryReconn_err (s : ServerState) (c : Conn) (e : Err)
    (hfail : c.failing = true) (hf : s.factorySpec s.factoryCalls = some e) :
    tryReconnIfFailed s c =
      ({ s with factoryCalls := s.factoryCalls + 1 }, c, some e) := by
  unfold tryReconnIfFailed
  rw [hfail]
  simp only [if_true]
  rw [hf]

/-- Repair of a failing connection when the factory call succeeds: the
transport is replaced and the failing flag cleared. -/
theorem tryReconn_ok (s : ServerState) (c : Conn)
    (hfail : c.failing = true) (hf : s.factorySpec s.factoryCalls = none) :
    tryReconnIfFailed s c =
      ({ s with factoryCalls := s.factoryCalls + 1 },
        { id := s.factoryCalls, failing := false }, none) := by
  unfold tryReconnIfFailed
  rw [hfail]
  simp only [if_true]
  rw [hf]

/-- One drain-loop iteration whose `GetConn` fails: `Close` returns
early. -/
theorem closeDrain_succ_err (f : Nat) {s s1 : ServerState} {i : Int}
    {e : Err} (hc : i < s.count) (hg : GetConn s = (s1, .err e)) :
    closeDrain (f + 1) s i = (s1, some .earlyErr) := by
  unfold closeDrain
  rw [if_pos hc, hg]

/-- One drain-loop iteration whose `GetConn` grants a connection: close
its transport and continue. -/
theorem closeDrain_succ_ok (f : Nat) {s s1 : ServerState} {i : Int}
    {c : Conn} (hc : i < s.count) (hg : GetConn s = (s1, .ok c)) :
    closeDrain (f + 1) s i = closeDrain f (connClose s1 c) (i + 1) := by
  conv_lhs => unfold closeDrain
  rw [if_pos hc, hg]

/-- The drain loop exits once `i` has reached the current `count`. -/
theorem closeDrain_done (f : Nat) {s : ServerState} {i : Int}
    (hc : ¬ i < s.count) :
    closeDrain (f + 1) s i = (s, some .completed) := by
  unfold closeDrain
  rw [if_neg hc]

/-- The state a successful `newConn` produces. -/
theorem newConn_none_fields {s s' : ServerState}
    (h : newConn s = (s', none)) :
    s' = { s with
            factoryCalls := s.factoryCalls + 1
            count := s.count + 1
            pool := s.pool ++ [{ id := s.factoryCalls, failing := false }] } := by
  unfold newConn at h
  rcases hf : s.factorySpec s.factoryCalls with _ | e <;> rw [hf] at h <;>
    simp only [Prod.mk.injEq] at h
  · exact h.1.symm
  · exact absurd h.2 (by simp)

/-- The state a failing `newConn` leaves behind: only the factory call is
recorded; `count` and the pool are untouched. -/
theorem newConn_some_fields {s s' : ServerState} {e : Err}
    (h : newConn s = (s', some e)) :
    s' = { s with factoryCalls := s.factoryCalls + 1 } := by
  unfold newConn at h
  rcases hf : s.factorySpec s.factoryCalls with _ | e' <;> rw [hf] at h <;>
    simp only [Prod.mk.injEq] at h
  · exact absurd h.2 (by simp)
  · exact h.1.symm

/-- Frame and counting facts about the growth loop: it changes neither
the pool size nor the shutdown flags, never shrinks `count`, and — since
the loop only runs while `i < poolSize - count` — never pushes `count`
past `max count poolSize`. -/
theorem growLoop_invariant (s : ServerState) (i : Int) :
    0 ≤ i →
    (growLoop s i).1.poolSize = s.poolSize ∧
    (growLoop s i).1.hcClosed = s.hcClosed ∧
    (growLoop s i).1.closedCh = s.closedCh ∧
    (growLoop s i).1.transportsClosed = s.transportsClosed ∧
    s.count ≤ (growLoop s i).1.count ∧
    (growLoop s i).1.count ≤ max s.count s.poolSize := by
  induction s, i using growLoop.induct with
  | case1 s i hlt s' e hn =>
      intro hi
      rw [growLoop_eq_err hlt hn, newConn_some_fields hn]
      simp
  | case2 s i hlt s' hn ih =>
      intro hi
      rw [growLoop_eq_step hlt hn]
      have hs' := newConn_none_fields hn
      subst hs'
      obtain ⟨ih1, ih2, ih3, ih4, ih5, ih6⟩ := ih (by omega)
      simp only [] at ih1 ih2 ih3 ih4 ih5 ih6 ⊢
      refine ⟨ih1, ih2, ih3, ih4, by omega, ?_⟩
      have hmax : max (s.count + 1) s.poolSize = s.poolSize :=
        max_eq_right (by omega)
      rw [hmax] at ih6
      have hmax2 : max s.count s.poolSize = s.poolSize :=
        max_eq_right (by omega)
      rw [hmax2]
      exact ih6
  | case3 s i hlt =>
      intro hi
      rw [growLoop_eq_done hlt]
      simp

/-- The receive-and-repair half of `GetConn` never changes `count`, the
pool size or the shutdown flags (repair replaces a transport without
touching `s.count`). -/
theorem getFromPool_invariant (s : ServerState) :
    (getFromPool s).1.count = s.count ∧
    (getFromPool s).1.poolSize = s.poolSize ∧
    (getFromPool s).1.hcClosed = s.hcClosed ∧
    (getFromPool s).1.closedCh = s.closedCh ∧
    (getFromPool s).1.transportsClosed = s.transportsClosed := by
  unfold getFromPool
  rcases s.pool with _ | ⟨c, rest⟩
  · simp
  · rcases hcf : c.failing
    · simp [hcf]
    · simp only [hcf, if_true]
      unfold tryReconnIfFailed
      rcases hf : s.factorySpec s.factoryCalls with _ | e <;>
        simp [hcf, hf]

/-- Frame and counting facts for one whole `GetConn` call: the pool size
and shutdown flags are untouched, `count` never shrinks, and never
exceeds `max count poolSize`. -/
theorem GetConn_invariant (s : ServerState) :
    (GetConn s).1.poolSize = s.poolSize ∧
    (GetConn s).1.hcClosed = s.hcClosed ∧
    (GetConn s).1.closedCh = s.closedCh ∧
    (GetConn s).1.transportsClosed = s.transportsClosed ∧
    s.count ≤ (GetConn s).1.count ∧
    (GetConn s).1.count ≤ max s.count s.poolSize := by
  unfold GetConn growPhase
  by_cases hc : s.count < s.poolSize
  · simp only [if_pos hc]
    have hinv := growLoop_invariant s 0 (le_refl 0)
    rcases hg : growLoop s 0 with ⟨s1, e⟩
    rw [hg] at hinv
    rcases e with _ | e
    · simp only []
      have h2 := getFromPool_invariant s1
      exact ⟨by rw [h2.2.1, hinv.1], by rw [h2.2.2.1, hinv.2.1],
             by rw [h2.2.2.2.1, hinv.2.2.1],
             by rw [h2.2.2.2.2, hinv.2.2.2.1],
             by rw [h2.1]; exact hinv.2.2.2.2.1,
             by rw [h2.1]; exact hinv.2.2.2.2.2⟩
    · simp only []
      exact hinv
  · simp only [if_neg hc]
    have h2 := getFromPool_invariant s
    exact ⟨h2.2.1, h2.2.2.1, h2.2.2.2.1, h2.2.2.2.2,
           le_of_eq h2.1.symm, by rw [h2.1]; exact le_max_left _ _⟩

/-- One heartbeat-sweep iteration that received a connection puts exactly
one connection back: the queue length, `count` and all other fields are
preserved. -/
theorem hbStep_some_fields {s s' : ServerState} (h : hbStep s = some s') :
    s'.count = s.count ∧ s'.poolSize = s.poolSize ∧
    s'.hcClosed = s.hcClosed ∧ s'.closedCh = s.closedCh ∧
    s'.transportsClosed = s.transportsClosed ∧
    s'.pool.length = s.pool.length := by
  unfold hbStep at h
  rcases hp : s.pool with _ | ⟨c, rest⟩ <;> rw [hp] at h
  · simp at h
  · simp only [Option.some.injEq] at h
    rw [← h]
    simp [PutConn, hp]

/-- The heartbeat sweep, for any fuel, never changes `count`, the pool
size or the shutdown flags: in particular it never grows the pool. -/
theorem broadcastHeartbeat_invariant (fuel : Nat) :
    ∀ s : ServerState,
    (broadcastHeartbeat fuel s).1.count = s.count ∧
    (broadcastHeartbeat fuel s).1.poolSize = s.poolSize ∧
    (broadcastHeartbeat fuel s).1.hcClosed = s.hcClosed ∧
    (broadcastHeartbeat fuel s).1.closedCh = s.closedCh ∧
    (broadcastHeartbeat fuel s).1.transportsClosed = s.transportsClosed := by
  induction fuel with
  | zero => intro s; simp [broadcastHeartbeat]
  | succ f ih =>
      intro s
      unfold broadcastHeartbeat
      rcases hs : hbStep s with _ | s'
      · simp
      · simp only []
        have hf := hbStep_some_fields hs
        have hr := ih s'
        exact ⟨by rw [hr.1, hf.1], by rw [hr.2.1, hf.2.1],
               by rw [hr.2.2.1, hf.2.2.1], by rw [hr.2.2.2.1, hf.2.2.2.1],
               by rw [hr.2.2.2.2, hf.2.2.2.2.1]⟩

/-- Key fact behind the heartbeat-sweep claim: because every iteration
puts the received connection back into the same channel it receives
from, the queue never empties, the `default` branch is never selected,
and the sweep does not return within any number of iterations whenever
at least one connection is idle at the tick. -/
theorem hb_never_returns (fuel : Nat) :
    ∀ s : ServerState, s.pool ≠ [] →
    (broadcastHeartbeat fuel s).2 = false := by
  induction fuel with
  | zero => intro s _; simp [broadcastHeartbeat]
  | succ f ih =>
      intro s hne
      unfold broadcastHeartbeat
      rcases hs : hbStep s with _ | s'
      · unfold hbStep at hs
        rcases hp : s.pool with _ | ⟨c, rest⟩
        · exact absurd hp hne
        · rw [hp] at hs; simp at hs
      · simp only []
        apply ih
        have := (hbStep_some_fields hs).2.2.2.2.2
        intro hnil
        rw [hnil] at this
        simp at this
        rcases hp : s.pool with _ | ⟨c, rest⟩
        · exact hne hp
        · rw [hp] at this; simp at this

/-- Closing a drained connection's transport never touches the counters
or the health-check flag. -/
theorem connClose_fields (s : ServerState) (c : Conn) :
    (connClose s c).count = s.count ∧
    (connClose s c).poolSize = s.poolSize ∧
    (connClose s c).hcClosed = s.hcClosed := by
  simp [connClose]

/-- The drain loop of `Close` preserves the pool size and the
health-check flag, and keeps `count` within `[count, max count
poolSize]` (it may grow the pool through `GetConn`, never shrink the
counter). -/
theorem closeDrain_invariant (fuel : Nat) :
    ∀ (s : ServerState) (i : Int),
    (closeDrain fuel s i).1.poolSize = s.poolSize ∧
    (closeDrain fuel s i).1.hcClosed = s.hcClosed ∧
    s.count ≤ (closeDrain fuel s i).1.count ∧
    (closeDrain fuel s i).1.count ≤ max s.count s.poolSize := by
  induction fuel with
  | zero => intro s i; simp [closeDrain]
  | succ f ih =>
      intro s i
      unfold closeDrain
      by_cases hc : i < s.count
      · simp only [if_pos hc]
        have hg := GetConn_invariant s
        rcases hget : GetConn s with ⟨s1, r⟩
        rw [hget] at hg
        rcases r with c | e
        · simp only []
          have hcc := connClose_fields s1 c
          have hr := ih (connClose s1 c) (i + 1)
          refine ⟨by rw [hr.1, hcc.2.1, hg.1],
                  by rw [hr.2.1, hcc.2.2, hg.2.1], ?_, ?_⟩
          · calc s.count ≤ s1.count := hg.2.2.2.2.1
              _ = (connClose s1 c).count := hcc.1.symm
              _ ≤ (closeDrain f (connClose s1 c) (i + 1)).1.count := hr.2.2.1
          · calc (closeDrain f (connClose s1 c) (i + 1)).1.count
                ≤ max (connClose s1 c).count (connClose s1 c).poolSize := hr.2.2.2
              _ = max s1.count s.poolSize := by rw [hcc.1, hcc.2.1, hg.1]
              _ ≤ max (max s.count s.poolSize) s.poolSize := by
                  apply max_le_max_right
                  exact hg.2.2.2.2.2
              _ = max s.count s.poolSize := by rw [max_assoc, max_self]
        · simp only []
          exact ⟨hg.1, hg.2.1, hg.2.2.2.2.1, hg.2.2.2.2.2⟩
        · simp only []
          exact ⟨hg.1, hg.2.1, hg.2.2.2.2.1, hg.2.2.2.2.2⟩
      · simp only [if_neg hc]
        simp

/-- `Close` preserves the pool size and keeps `count` within
`[count, max count poolSize]`. -/
theorem Close_invariant (fuel : Nat) (s : ServerState) :
    (Close fuel s).1.poolSize = s.poolSize ∧
    s.count ≤ (Close fuel s).1.count ∧
    (Close fuel s).1.count ≤ max s.count s.poolSize := by
  unfold Close
  have hd := closeDrain_invariant fuel { s with closedCh := true } 0
  rcases hres : closeDrain fuel { s with closedCh := true } 0 with ⟨s1, r⟩
  rw [hres] at hd
  rcases r with _ | o
  · simp only []
    exact ⟨hd.1, hd.2.2.1, hd.2.2.2⟩
  · rcases o <;> simp only [] <;>
      exact ⟨hd.1, hd.2.2.1, hd.2.2.2⟩

/-- When and only when `Close` completes its drain, the Health-Check
Service ends up closed; on any other outcome the flag is what it was
before the call. -/
theorem Close_hcClosed (fuel : Nat) (s : ServerState) :
    ((Close fuel s).2 = some CloseOutcome.completed →
       (Close fuel s).1.hcClosed = true) ∧
    ((Close fuel s).2 ≠ some CloseOutcome.completed →
       (Close fuel s).1.hcClosed = s.hcClosed) := by
  unfold Close
  have hd := closeDrain_invariant fuel { s with closedCh := true } 0
  rcases hres : closeDrain fuel { s with closedCh := true } 0 with ⟨s1, r⟩
  rw [hres] at hd
  rcases r with _ | o
  · simp only []
    exact ⟨by intro h; simp at h, fun _ => by rw [hd.2.1]⟩
  · rcases o
    · simp
    · simp only []
      exact ⟨by intro h; simp at h, fun _ => by rw [hd.2.1]⟩
    · simp only []
      exact ⟨by intro h; simp at h, fun _ => by rw [hd.2.1]⟩

/-- The four one-way convenience wrappers have literally the same pool
behaviour; they differ only in the opaque per-connection exchange they
delegate to. -/
theorem detectRespCtx_eq_reqCtx : DetectResponseInCtx = DetectRequestInCtx := rfl

/-- See `detectRespCtx_eq_reqCtx`. -/
theorem detectHttp_eq_reqCtx : DetectHttpRequest = DetectRequestInCtx := rfl

/-- See `detectRespCtx_eq_reqCtx`. -/
theorem detectReq_eq_reqCtx : DetectRequest = DetectRequestInCtx := rfl

/-- A one-way convenience call changes the counters exactly as its inner
`GetConn` does (the `defer`red `PutConn` touches only the queue). -/
theorem detectReqCtx_fields (s : ServerState) (ex : Conn → Option Err) :
    (DetectRequestInCtx s ex).1.count = (GetConn s).1.count ∧
    (DetectRequestInCtx s ex).1.poolSize = (GetConn s).1.poolSize ∧
    (DetectRequestInCtx s ex).1.hcClosed = (GetConn s).1.hcClosed := by
  unfold DetectRequestInCtx
  rcases hget : GetConn s with ⟨s1, r⟩
  rcases r with c | e
  · rcases hex : ex c with _ | e <;> simp [hex, PutConn]
  · simp
  · simp

/-- The two-way `Detect` also changes the counters exactly as its inner
`GetConn` does, whether or not it releases the connection. -/
theorem detectBoth_fields (s : ServerState) (ex : Conn → Option Err) :
    (Detect s ex).1.count = (GetConn s).1.count ∧
    (Detect s ex).1.poolSize = (GetConn s).1.poolSize ∧
    (Detect s ex).1.hcClosed = (GetConn s).1.hcClosed := by
  unfold Detect
  rcases hget : GetConn s with ⟨s1, r⟩
  rcases r with c | e
  · rcases hex : ex c with _ | e <;> simp [hex, PutConn]
  · simp
  · simp

/-- Master per-operation counting lemma: every pool operation preserves
the pool size, never decreases `count`, and never pushes `count` above
`max count poolSize`. -/
theorem applyOp_count (s : ServerState) (op : Op) :
    (applyOp s op).poolSize = s.poolSize ∧
    s.count ≤ (applyOp s op).count ∧
    (applyOp s op).count ≤ max s.count s.poolSize := by
  rcases op with _ | c | fuel | fuel | ex | ex | ex | ex | ex
  · simp only [applyOp]
    have h := GetConn_invariant s
    exact ⟨h.1, h.2.2.2.2.1, h.2.2.2.2.2⟩
  · simp [applyOp, PutConn]
  · simp only [applyOp]
    have h := broadcastHeartbeat_invariant fuel s
    exact ⟨h.2.1, le_of_eq h.1.symm, by rw [h.1]; exact le_max_left _ _⟩
  · simp only [applyOp]
    have h := Close_invariant fuel s
    exact ⟨h.1, h.2.1, h.2.2⟩
  · simp only [applyOp]
    have hw := detectReqCtx_fields s ex
    have hg := GetConn_invariant s
    exact ⟨hw.2.1.trans hg.1, by rw [hw.1]; exact hg.2.2.2.2.1,
           by rw [hw.1]; exact hg.2.2.2.2.2⟩
  · simp only [applyOp, detectRespCtx_eq_reqCtx]
    have hw := detectReqCtx_fields s ex
    have hg := GetConn_invariant s
    exact ⟨hw.2.1.trans hg.1, by rw [hw.1]; exact hg.2.2.2.2.1,
           by rw [hw.1]; exact hg.2.2.2.2.2⟩
  · simp only [applyOp, detectHttp_eq_reqCtx]
    have hw := detectReqCtx_fields s ex
    have hg := GetConn_invariant s
    exact ⟨hw.2.1.trans hg.1, by rw [hw.1]; exact hg.2.2.2.2.1,
           by rw [hw.1]; exact hg.2.2.2.2.2⟩
  · simp only [applyOp, detectReq_eq_reqCtx]
    have hw := detectReqCtx_fields s ex
    have hg := GetConn_invariant s
    exact ⟨hw.2.1.trans hg.1, by rw [hw.1]; exact hg.2.2.2.2.1,
           by rw [hw.1]; exact hg.2.2.2.2.2⟩
  · simp only [applyOp]
    have hw := detectBoth_fields s ex
    have hg := GetConn_invariant s
    exact ⟨hw.2.1.trans hg.1, by rw [hw.1]; exact hg.2.2.2.2.1,
           by rw [hw.1]; exact hg.2.2.2.2.2⟩

/-- C1 (code evaluated at the failing input): from a fresh pool of target
size 2 with an always succeeding factory, a single `GetConn` whose growth
step runs leaves `count` at 1 after exactly 1 factory call — not, as the
claim states, at the target 2 after 2 factory calls.  The growth loop
bound `poolSize - count` is re-evaluated while `newConn` increments
`count`, so the loop stops halfway to the target. -/
theorem c1_growth_stops_short :
    (GetConn poolTwoStart).1.count = 1 ∧
    (GetConn poolTwoStart).1.factoryCalls = 1 ∧
    poolTwoStart.poolSize = 2 ∧
    (GetConn poolTwoStart).1.count ≠ poolTwoStart.poolSize := by
  have hn : newConn poolTwoStart =
      ({ poolTwoStart with
          factoryCalls := 1
          count := 1
          pool := [{ id := 0, failing := false }] }, none) := rfl
  have hgrow : growLoop poolTwoStart 0 =
      ({ poolTwoStart with
          factoryCalls := 1
          count := 1
          pool := [{ id := 0, failing := false }] }, none) :=
    growLoop_one_success (by decide) hn (by decide)
  have hGet : GetConn poolTwoStart =
      ({ poolTwoStart with factoryCalls := 1, count := 1, pool := [] },
        .ok { id := 0, failing := false }) := by
    rw [GetConn_of_grow_none ((growPhase_of_lt (by decide)).trans hgrow)]
    rfl
  rw [hGet]
  exact ⟨rfl, rfl, rfl, by decide⟩

/-- C2 (code evaluated at the failing input): with a single healthy idle
connection in the queue at the tick, one sweep iteration receives it,
pings it and puts it back, reproducing the very same state — so the
`default` branch is never selected and `broadcastHeartbeat` does not
return within any number of iterations, instead of touching each idle
connection exactly once and returning to the timer loop. -/
theorem c2_sweep_never_returns :
    hbStep hbOneIdle = some hbOneIdle ∧
    ∀ fuel : Nat, (broadcastHeartbeat fuel hbOneIdle).2 = false :=
  ⟨rfl, fun fuel =>
    hb_never_returns fuel hbOneIdle (by simp [hbOneIdle, mkState])⟩

/-- C3 counterexample: from a pool with one live connection, target size
2 and a factory that fails during the drain's growth, `Close` returns
(outcome `earlyErr`) with the Health-Check Service still not closed —
refuting the claim that every return path of `Close` closes it. -/
theorem c3_hc_not_closed :
    (Close 1 closeFactoryFails).2 = some CloseOutcome.earlyErr ∧
    (Close 1 closeFactoryFails).1.hcClosed = false := by
  have hn : newConn { closeFactoryFails with closedCh := true } =
      ({ closeFactoryFails with closedCh := true, factoryCalls := 2 },
        some { code := 7 }) := rfl
  have hgrow : growLoop { closeFactoryFails with closedCh := true } 0 =
      ({ closeFactoryFails with closedCh := true, factoryCalls := 2 },
        some { code := 7 }) :=
    growLoop_eq_err (by decide) hn
  have hGet : GetConn { closeFactoryFails with closedCh := true } =
      ({ closeFactoryFails with closedCh := true, factoryCalls := 2 },
        .err { code := 7 }) :=
    GetConn_of_grow_err ((growPhase_of_lt (by decide)).trans hgrow)
  have hd : closeDrain 1 { closeFactoryFails with closedCh := true } 0 =
      ({ closeFactoryFails with closedCh := true, factoryCalls := 2 },
        some .earlyErr) :=
    closeDrain_succ_err 0 (by decide) hGet
  constructor
  · unfold Close
    rw [hd]
  · unfold Close
    rw [hd]
    rfl

/-- C3 as amended: `Close` signals shutdown and drains by repeatedly
acquiring and closing connections, stopping early if an acquisition
fails; the Health-Check Service is closed exactly on the path where the
drain completes — on the early-return path after an acquisition failure
(and on the blocked path) `Close` ends without closing it. -/
theorem c3_amended_close (fuel : Nat) (s : ServerState)
    (h0 : s.hcClosed = false) :
    ((Close fuel s).2 = some CloseOutcome.completed →
        (Close fuel s).1.hcClosed = true) ∧
    ((Close fuel s).2 = some CloseOutcome.earlyErr →
        (Close fuel s).1.hcClosed = false) ∧
    ((Close fuel s).2 = some CloseOutcome.blocked →
        (Close fuel s).1.hcClosed = false) := by
  have h := Close_hcClosed fuel s
  refine ⟨h.1, ?_, ?_⟩ <;> intro ho
  · rw [h.2 (by rw [ho]; decide), h0]
  · rw [h.2 (by rw [ho]; decide), h0]

/-- Witness for C3 as amended: a `Close` on an empty pool completes its
(empty) drain and ends with the Health-Check Service closed. -/
theorem c3_amended_close_witness :
    (Close 1 emptyPool).2 = some CloseOutcome.completed ∧
    (Close 1 emptyPool).1.hcClosed = true := by
  have hd : closeDrain 1 { emptyPool with closedCh := true } 0 =
      ({ emptyPool with closedCh := true }, some .completed) :=
    closeDrain_done 0 (by decide)
  have hc : (Close 1 emptyPool).2 = some CloseOutcome.completed := by
    unfold Close
    rw [hd]
  exact ⟨hc, (c3_amended_close 1 emptyPool rfl).1 hc⟩

/-- C4: starting from any state satisfying 0 <= count <= poolSize, every
single Acquire, Release, heartbeat-sweep, Close or Detect* operation, and
every sequence of such operations, preserves the invariant
0 <= count <= poolSize (and never changes the pool size itself). -/
theorem c4_count_invariant :
    (∀ (s : ServerState) (op : Op), 0 ≤ s.count → s.count ≤ s.poolSize →
        0 ≤ (applyOp s op).count ∧
        (applyOp s op).count ≤ (applyOp s op).poolSize ∧
        (applyOp s op).poolSize = s.poolSize) ∧
    (∀ (ops : List Op) (s : ServerState), 0 ≤ s.count → s.count ≤ s.poolSize →
        0 ≤ (ops.foldl applyOp s).count ∧
        (ops.foldl applyOp s).count ≤ (ops.foldl applyOp s).poolSize) := by
  constructor
  · intro s op h0 hle
    have h := applyOp_count s op
    refine ⟨le_trans h0 h.2.1, ?_, h.1⟩
    rw [h.1]
    exact h.2.2.trans (le_of_eq (max_eq_right hle))
  · intro ops
    induction ops with
    | nil => intro s h0 hle; exact ⟨h0, hle⟩
    | cons op rest ih =>
        intro s h0 hle
        have h := applyOp_count s op
        have h0' : 0 ≤ (applyOp s op).count := le_trans h0 h.2.1
        have hle' : (applyOp s op).count ≤ (applyOp s op).poolSize := by
          rw [h.1]
          exact h.2.2.trans (le_of_eq (max_eq_right hle))
        exact ih (applyOp s op) h0' hle'

/-- Witness for C4 at a concrete input: a first `GetConn` on a fresh pool
of size 2 keeps the invariant. -/
theorem c4_count_invariant_witness :
    0 ≤ (applyOp poolTwoStart Op.acquire).count ∧
    (applyOp poolTwoStart Op.acquire).count ≤
      (applyOp poolTwoStart Op.acquire).poolSize ∧
    (applyOp poolTwoStart Op.acquire).poolSize = poolTwoStart.poolSize :=
  c4_count_invariant.1 poolTwoStart Op.acquire (by decide) (by decide)

/-- C5: whenever growth is attempted (count below target) and the first
factory call fails with error e, `GetConn` returns exactly that error and
the state differs from the pre-attempt state only in the recorded factory
call: `count` and the pool are unchanged, so a subsequent `GetConn`
retries growth from the same count (second conjunct) and fails the same
way; and when the factory fails partway (first call succeeds, second
fails), the already-created connection remains pooled and counted (third
conjunct). -/
theorem c5_factory_failure :
    (∀ (s : ServerState) (e : Err), s.count < s.poolSize →
        s.factorySpec s.factoryCalls = some e →
        GetConn s = ({ s with factoryCalls := s.factoryCalls + 1 },
                      .err e)) ∧
    (∀ (s : ServerState) (e e' : Err), s.count < s.poolSize →
        s.factorySpec s.factoryCalls = some e →
        s.factorySpec (s.factoryCalls + 1) = some e' →
        GetConn { s with factoryCalls := s.factoryCalls + 1 } =
          ({ s with factoryCalls := s.factoryCalls + 2 }, .err e')) ∧
    (∀ (t : ServerState) (e2 : Err), t.count + 2 < t.poolSize →
        t.factorySpec t.factoryCalls = none →
        t.factorySpec (t.factoryCalls + 1) = some e2 →
        GetConn t =
          ({ t with
              factoryCalls := t.factoryCalls + 2
              count := t.count + 1
              pool := t.pool ++ [{ id := t.factoryCalls, failing := false }] },
            .err e2)) := by
  have main : ∀ (s : ServerState) (e : Err), s.count < s.poolSize →
      s.factorySpec s.factoryCalls = some e →
      GetConn s = ({ s with factoryCalls := s.factoryCalls + 1 }, .err e) := by
    intro s e hc hf
    have hn : newConn s =
        ({ s with factoryCalls := s.factoryCalls + 1 }, some e) := by
      unfold newConn
      rw [hf]
    have hg : growLoop s 0 =
        ({ s with factoryCalls := s.factoryCalls + 1 }, some e) :=
      growLoop_eq_err (by omega) hn
    exact GetConn_of_grow_err ((growPhase_of_lt hc).trans hg)
  refine ⟨main, ?_, ?_⟩
  · intro s e e' hc hf hf'
    exact main { s with factoryCalls := s.factoryCalls + 1 } e' hc hf'
  · intro t e2 hc hf0 hf1
    have hn0 : newConn t =
        ({ t with
            factoryCalls := t.factoryCalls + 1
            count := t.count + 1
            pool := t.pool ++ [{ id := t.factoryCalls, failing := false }] },
          none) := by
      unfold newConn
      rw [hf0]
    have hn1 : newConn { t with
        factoryCalls := t.factoryCalls + 1
        count := t.count + 1
        pool := t.pool ++ [{ id := t.factoryCalls, failing := false }] } =
        ({ t with
            factoryCalls := t.factoryCalls + 2
            count := t.count + 1
            pool := t.pool ++ [{ id := t.factoryCalls, failing := false }] },
          some e2) := by
      unfold newConn
      rw [show ({ t with
          factoryCalls := t.factoryCalls + 1
          count := t.count + 1
          pool := t.pool ++ [{ id := t.factoryCalls, failing := false }] }
            : ServerState).factorySpec
          ({ t with
              factoryCalls := t.factoryCalls + 1
              count := t.count + 1
              pool := t.pool ++ [{ id := t.factoryCalls, failing := false }] }
            : ServerState).factoryCalls =
          t.factorySpec (t.factoryCalls + 1) from rfl]
      rw [hf1]
    have hstep : growLoop t 0 = growLoop { t with
        factoryCalls := t.factoryCalls + 1
        count := t.count + 1
        pool := t.pool ++ [{ id := t.factoryCalls, failing := false }] } 1 :=
      growLoop_eq_step (by omega) hn0
    have herr : growLoop { t with
        factoryCalls := t.factoryCalls + 1
        count := t.count + 1
        pool := t.pool ++ [{ id := t.factoryCalls, failing := false }] } 1 =
        ({ t with
            factoryCalls := t.factoryCalls + 2
            count := t.count + 1
            pool := t.pool ++ [{ id := t.factoryCalls, failing := false }] },
          some e2) := by
      apply growLoop_eq_err
      · show (1 : Int) < t.poolSize - (t.count + 1)
        omega
      · exact hn1
    exact GetConn_of_grow_err
      ((growPhase_of_lt (by omega)).trans (hstep.trans herr))

/-- Witness for C5: pool of size 1, count 0, factory failing with error
5: `GetConn` returns error 5 and count stays 0. -/
theorem c5_factory_failure_witness :
    GetConn factoryAlwaysFails =
      ({ factoryAlwaysFails with factoryCalls := 1 },
        .err { code := 5 }) ∧
    ({ factoryAlwaysFails with factoryCalls := 1 } : ServerState).count = 0 :=
  ⟨c5_factory_failure.1 factoryAlwaysFails { code := 5 } (by decide) rfl, rfl⟩

/-- C6: when `GetConn` pops a failing connection (after a growth phase
that reported no error), a failed repair pushes the still-failing
connection back onto the queue and returns the error without granting a
connection, while a successful repair hands the caller a connection with
the failing flag cleared. -/
theorem c6_failing_repair (s s1 : ServerState) (c : Conn) (rest : List Conn)
    (hg : growPhase s = (s1, none))
    (hpool : s1.pool = c :: rest)
    (hfail : c.failing = true) :
    (∀ e : Err, s1.factorySpec s1.factoryCalls = some e →
        GetConn s =
          ({ s1 with
              pool := rest ++ [c]
              factoryCalls := s1.factoryCalls + 1 }, .err e)) ∧
    (s1.factorySpec s1.factoryCalls = none →
        GetConn s =
          ({ s1 with
              pool := rest
              factoryCalls := s1.factoryCalls + 1 },
            .ok { id := s1.factoryCalls, failing := false })) := by
  have hGet : GetConn s = getFromPool s1 := GetConn_of_grow_none hg
  constructor
  · intro e hf
    rw [hGet]
    unfold getFromPool
    simp only [hpool, hfail, if_true]
    rw [tryReconn_err { s1 with pool := rest } c e hfail hf]
  · intro hf
    rw [hGet]
    unfold getFromPool
    simp only [hpool, hfail, if_true]
    rw [tryReconn_ok { s1 with pool := rest } c hfail hf]

/-- Witness for C6: a full pool of size 1 holding one failing connection;
with a succeeding factory the caller gets a healthy replacement, with a
failing factory the error comes back and the failing connection is back
in the queue. -/
theorem c6_failing_repair_witness :
    GetConn failingIdle =
      ({ failingIdle with pool := [], factoryCalls := 2 },
        .ok { id := 1, failing := false }) ∧
    GetConn repairFails =
      ({ repairFails with
          pool := [{ id := 0, failing := true }]
          factoryCalls := 2 }, .err { code := 9 }) := by
  constructor
  · exact (c6_failing_repair failingIdle failingIdle
      { id := 0, failing := true } [] rfl rfl rfl).2 rfl
  · exact (c6_failing_repair repairFails repairFails
      { id := 0, failing := true } [] rfl rfl rfl).1 { code := 9 } rfl

/-- C7: every one-way convenience operation that successfully acquires a
connection releases it back to the queue whether the exchange succeeds or
fails; the two-way `Detect` releases it only when the exchange succeeds
and keeps it out of the pool (state unchanged from the post-acquire
state, error propagated) when the exchange fails. -/
theorem c7_detect_release (s s1 : ServerState) (c : Conn)
    (ex : Conn → Option Err) (hget : GetConn s = (s1, .ok c)) :
    (DetectRequestInCtx s ex).1.pool = s1.pool ++ [c] ∧
    (DetectResponseInCtx s ex).1.pool = s1.pool ++ [c] ∧
    (DetectHttpRequest s ex).1.pool = s1.pool ++ [c] ∧
    (DetectRequest s ex).1.pool = s1.pool ++ [c] ∧
    (ex c = none → (Detect s ex).1.pool = s1.pool ++ [c]) ∧
    (∀ e : Err, ex c = some e →
        (Detect s ex).1 = s1 ∧ (Detect s ex).2 = .failed e) := by
  refine ⟨?_, ?_, ?_, ?_, ?_, ?_⟩
  · unfold DetectRequestInCtx
    rw [hget]
    rcases hex : ex c with _ | e <;> simp [hex, PutConn]
  · unfold DetectResponseInCtx
    rw [hget]
    rcases hex : ex c with _ | e <;> simp [hex, PutConn]
  · unfold DetectHttpRequest
    rw [hget]
    rcases hex : ex c with _ | e <;> simp [hex, PutConn]
  · unfold DetectRequest
    rw [hget]
    rcases hex : ex c with _ | e <;> simp [hex, PutConn]
  · intro hex
    unfold Detect
    rw [hget]
    simp [hex, PutConn]
  · intro e hex
    unfold Detect
    rw [hget]
    simp [hex]

/-- Witness for C7: on a full pool of size 1 with a failing exchange, the
one-way wrapper returns the connection to the queue while the two-way
`Detect` leaves the queue empty. -/
theorem c7_detect_release_witness :
    (DetectRequestInCtx detectReady exFail).1.pool =
      [{ id := 0, failing := false }] ∧
    (Detect detectReady exFail).1.pool = [] := by
  have h := c7_detect_release detectReady { detectReady with pool := [] }
    { id := 0, failing := false } exFail rfl
  refine ⟨?_, ?_⟩
  · rw [h.1]
    rfl
  · rw [(h.2.2.2.2.2 { code := 3 } rfl).1]

/-- C8: the heartbeat loop arms every tick with the single interval value
read at loop startup; that value is the parsed integer when the
environment variable is set and parses, and the default 20 when the
variable is unset (empty) or unparsable. -/
theorem c8_heartbeat_interval (envAt : Nat → String) (n : Nat) :
    (∀ v ∈ runHeartbeatIntervals envAt n, v = heartbeatInterval (envAt 0)) ∧
    (runHeartbeatIntervals envAt n).length = n ∧
    (envAt 0 = "" → heartbeatInterval (envAt 0) = 20) ∧
    (goAtoi (envAt 0) = none → heartbeatInterval (envAt 0) = 20) ∧
    (∀ v : Int, envAt 0 ≠ "" → goAtoi (envAt 0) = some v →
        heartbeatInterval (envAt 0) = v) := by
  refine ⟨?_, ?_, ?_, ?_, ?_⟩
  · intro v hv
    unfold runHeartbeatIntervals at hv
    simp at hv
    exact hv.2
  · simp [runHeartbeatIntervals]
  · intro h
    simp [heartbeatInterval, h]
  · intro h
    by_cases he : envAt 0 = "" <;> simp [heartbeatInterval, he, h]
  · intro v hne hv
    simp [heartbeatInterval, hne, hv]

/-- Witness for C8: a set, parsable value is used; unset or unparsable
values fall back to the default 20. -/
theorem c8_heartbeat_interval_witness :
    heartbeatInterval "33" = 33 ∧
    heartbeatInterval "" = 20 ∧
    heartbeatInterval "oops" = 20 :=
  ⟨(c8_heartbeat_interval (fun _ => "33") 1).2.2.2.2 33 (by decide) (by rfl),
   (c8_heartbeat_interval (fun _ => "") 1).2.2.1 rfl,
   (c8_heartbeat_interval (fun _ => "oops") 1).2.2.2.1 (by rfl)⟩

/-- C9: no pool operation ever decreases `count` (singly or in
sequences); closing a drained connection's transport during `Close`
leaves `count` exactly unchanged, and a heartbeat sweep leaves `count`
exactly unchanged. -/
theorem c9_count_monotone :
    (∀ (s : ServerState) (op : Op), s.count ≤ (applyOp s op).count) ∧
    (∀ (ops : List Op) (s : ServerState),
        s.count ≤ (ops.foldl applyOp s).count) ∧
    (∀ (s : ServerState) (c : Conn), (connClose s c).count = s.count) ∧
    (∀ (fuel : Nat) (s : ServerState),
        (broadcastHeartbeat fuel s).1.count = s.count) := by
  refine ⟨fun s op => (applyOp_count s op).2.1, ?_,
          fun s c => (connClose_fields s c).1,
          fun fuel s => (broadcastHeartbeat_invariant fuel s).1⟩
  intro ops
  induction ops with
  | nil => intro s; exact le_refl _
  | cons op rest ih =>
      intro s
      exact (applyOp_count s op).2.1.trans (ih (applyOp s op))

/-- C10: a `Close` that runs while `count` (here 1) is below the target
pool size (here 2) completes with one more factory call than had ever
been made before, `count` grown to the target, and both transports —
including the one created during shutdown (id 1) — closed by the drain,
showing the drain's `GetConn` grows the pool during shutdown. -/
theorem c10_close_creates_conns :
    (Close 3 closeHalfFull).2 = some CloseOutcome.completed ∧
    (Close 3 closeHalfFull).1.factoryCalls = closeHalfFull.factoryCalls + 1 ∧
    (Close 3 closeHalfFull).1.count = 2 ∧
    (Close 3 closeHalfFull).1.transportsClosed = [0, 1] ∧
    (Close 3 closeHalfFull).1.hcClosed = true := by
  have hn : newConn { closeHalfFull with closedCh := true } =
      ({ closeHalfFull with
          closedCh := true
          factoryCalls := 2
          count := 2
          pool := [{ id := 0, failing := false },
                   { id := 1, failing := false }] }, none) := rfl
  have hgrow : growLoop { closeHalfFull with closedCh := true } 0 =
      ({ closeHalfFull with
          closedCh := true
          factoryCalls := 2
          count := 2
          pool := [{ id := 0, failing := false },
                   { id := 1, failing := false }] }, none) :=
    growLoop_one_success (by decide) hn (by decide)
  have hGet1 : GetConn { closeHalfFull with closedCh := true } =
      ({ closeHalfFull with
          closedCh := true
          factoryCalls := 2
          count := 2
          pool := [{ id := 1, failing := false }] },
        .ok { id := 0, failing := false }) := by
    rw [GetConn_of_grow_none ((growPhase_of_lt (by decide)).trans hgrow)]
    rfl
  have hd1 : closeDrain 3 { closeHalfFull with closedCh := true } 0 =
      closeDrain 2
        { closeHalfFull with
            closedCh := true
            factoryCalls := 2
            count := 2
            pool := [{ id := 1, failing := false }]
            transportsClosed := [0] } 1 :=
    closeDrain_succ_ok 2 (by decide) hGet1
  have hGet2 : GetConn
      { closeHalfFull with
          closedCh := true
          factoryCalls := 2
          count := 2
          pool := [{ id := 1, failing := false }]
          transportsClosed := [0] } =
      ({ closeHalfFull with
          closedCh := true
          factoryCalls := 2
          count := 2
          pool := []
          transportsClosed := [0] },
        .ok { id := 1, failing := false }) := by
    rw [GetConn_of_grow_none (growPhase_of_ge (by decide))]
    rfl
  have hd2 : closeDrain 2
      { closeHalfFull with
          closedCh := true
          factoryCalls := 2
          count := 2
          pool := [{ id := 1, failing := false }]
          transportsClosed := [0] } 1 =
      closeDrain 1
        { closeHalfFull with
            closedCh := true
            factoryCalls := 2
            count := 2
            pool := []
            transportsClosed := [0, 1] } 2 :=
    closeDrain_succ_ok 1 (by decide) hGet2
  have hd3 : closeDrain 1
      { closeHalfFull with
          closedCh := true
          factoryCalls := 2
          count := 2
          pool := []
          transportsClosed := [0, 1] } 2 =
      ({ closeHalfFull with
          closedCh := true
          factoryCalls := 2
          count := 2
          pool := []
          transportsClosed := [0, 1] }, some .completed) :=
    closeDrain_done 0 (by decide)
  unfold Close
  rw [hd1, hd2, hd3]
  exact ⟨rfl, rfl, rfl, rfl, rfl⟩

end T1k
